import Mathlib

/- Verification of the MatriPixel anemia-detection training pipeline
   (training/train_anemia_model.py) against its design specification.
   Shallow embedding: the configuration checks of main, the data-generator
   configuration, the two-phase fine-tuning schedule, the evaluator, the
   checkpointing policy and the export/metadata stage are modelled as
   executable Lean functions, and the specified properties are proved or
   refuted about them. -/

namespace MatriPixel

/-- Directory layout seen by main's configuration checks
(train_anemia_model.py, lines 422-441): existence flags for the data root
and the two class subdirectories, plus the number of images each class
directory holds. -/
structure DirState where
  dataDirExists : Bool
  anemicExists : Bool
  normalExists : Bool
  anemicCount : Nat
  normalCount : Nat
deriving DecidableEq

/-- Fatal configuration errors reported by main before training. -/
inductive ConfigError where
  | missingDataDir
  | missingClassSubdir
deriving DecidableEq

/-- Observable pipeline actions once the configuration checks pass:
partitioning (create_data_generators), creating the output directory
(os.makedirs inside get_callbacks) and training (model.fit). -/
inductive PipelineEvent where
  | partitioned
  | madeOutputDir
  | trained
deriving DecidableEq

/-- main (lines 422-468) up to the first fit call: the data-root existence
check, then the class-subdirectory existence check; only when both pass does
the pipeline partition the data, create the output directory and start
training. The error branches return immediately, producing no events
(no file or directory is written before the checks). Image counts are
never consulted by the checks. -/
def main_prelude (s : DirState) : Option ConfigError × List PipelineEvent :=
  if !s.dataDirExists then
    (some ConfigError.missingDataDir, [])
  else if !s.anemicExists || !s.normalExists then
    (some ConfigError.missingClassSubdir, [])
  else
    (none, [PipelineEvent.partitioned, PipelineEvent.madeOutputDir, PipelineEvent.trained])

/-- ImageDataGenerator configuration surface used by create_data_generators
(lines 61-78). A range of 0, a false flag, or an absent brightness range
means the corresponding augmentation axis is disabled. -/
structure GenConfig where
  rescale : ℚ
  rotationRange : ℚ
  widthShiftRange : ℚ
  heightShiftRange : ℚ
  shearRange : ℚ
  zoomRange : ℚ
  horizontalFlip : Bool
  brightnessRange : Option (ℚ × ℚ)
  validationSplit : ℚ
deriving DecidableEq

/-- Training-stream generator configuration (lines 61-72). -/
def train_datagen : GenConfig where
  rescale := 1 / 255
  rotationRange := 20
  widthShiftRange := 1 / 5
  heightShiftRange := 1 / 5
  shearRange := 3 / 20
  zoomRange := 1 / 5
  horizontalFlip := true
  brightnessRange := some (4 / 5, 6 / 5)
  validationSplit := 1 / 5

/-- Validation-stream generator configuration (lines 75-78): only the
1/255 rescaling and the validation split; every augmentation field is at
its disabled value. -/
def val_datagen : GenConfig where
  rescale := 1 / 255
  rotationRange := 0
  widthShiftRange := 0
  heightShiftRange := 0
  shearRange := 0
  zoomRange := 0
  horizontalFlip := false
  brightnessRange := none
  validationSplit := 1 / 5

/-- One sample's independent random draws, one per augmentation axis. -/
structure Draws where
  rot : ℚ
  shiftX : ℚ
  shiftY : ℚ
  shear : ℚ
  zoom : ℚ
  flip : Bool
  bright : ℚ
deriving DecidableEq

/-- Concrete per-sample transformation parameters drawn by the augmenter. -/
structure TransformParams where
  theta : ℚ
  tx : ℚ
  ty : ℚ
  shear : ℚ
  zx : ℚ
  zy : ℚ
  flip : Bool
  brightness : Option ℚ
deriving DecidableEq

/-- Modelled from the spec: the parameter-drawing step of the augmenter
(the ImageDataGenerator internals live outside this repository). Each
enabled augmentation axis consumes an independent random draw scaled by its
configured range; a disabled axis (range 0, flag off, no brightness range)
yields the identity parameter: 0 for the additive axes, 1 for zoom, no flip,
no brightness scaling. -/
def get_random_transform (c : GenConfig) (r : Draws) : TransformParams where
  theta := if c.rotationRange ≠ 0 then c.rotationRange * r.rot else 0
  tx := if c.widthShiftRange ≠ 0 then c.widthShiftRange * r.shiftX else 0
  ty := if c.heightShiftRange ≠ 0 then c.heightShiftRange * r.shiftY else 0
  shear := if c.shearRange ≠ 0 then c.shearRange * r.shear else 0
  zx := if c.zoomRange ≠ 0 then 1 + c.zoomRange * r.zoom else 1
  zy := if c.zoomRange ≠ 0 then 1 + c.zoomRange * r.zoom else 1
  flip := c.horizontalFlip && r.flip
  brightness := c.brightnessRange.map (fun br => br.1 + (br.2 - br.1) * r.bright)

/-- Modelled from the spec: application of the drawn parameters to an image
(a flat list of pixel values). The geometric warp internals are outside this
repository and outside the spec's contract; they are abstracted to an affine
action on pixel values whose only property of interest holds by
construction: identity parameters leave the image unchanged. -/
def apply_transform (p : TransformParams) (img : List ℚ) : List ℚ :=
  let flipped := if p.flip then img.reverse else img
  let lit := match p.brightness with
    | some b => flipped.map (fun v => b * v)
    | none => flipped
  lit.map (fun v => p.zx * p.zy * v + p.theta + p.tx + p.ty + p.shear)

/-- Pixel-value rescaling applied by the generator after the transform. -/
def standardize (c : GenConfig) (img : List ℚ) : List ℚ :=
  img.map (fun v => c.rescale * v)

/-- Per-sample pipeline of a generator: draw transform parameters from the
random stream, apply them, then rescale. -/
def processSample (c : GenConfig) (r : Draws) (img : List ℚ) : List ℚ :=
  standardize c (apply_transform (get_random_transform c r) img)

/-- flow_from_directory iteration order for one epoch: with shuffle=False
(the validation generator, line 98) the index order is the fixed ascending
order, independent of the epoch; with shuffle=True it is a per-epoch
permutation. -/
def epochIndexOrder (shuffle : Bool) (perm : Nat → List Nat) (epoch n : Nat) : List Nat :=
  if shuffle then perm epoch else List.range n

/-- validation_split partition of one class's sorted file list: the
validation subset is the fixed leading fraction, the training subset the
rest (modelled from the spec's stable-split contract; the directory iterator
lives outside this repository). -/
def validationSubset (files : List String) (f : ℚ) : List String :=
  files.take (Int.toNat ⌊f * files.length⌋)

/-- One evaluation pass: the model applied to every sample the generator
yields from the image list under the given random stream. -/
def evalPass (m : List ℚ → ℚ) (c : GenConfig) (rng : Nat → Draws)
    (imgs : List (List ℚ)) : List ℚ :=
  imgs.enum.map (fun p => m (processSample c (rng p.1) p.2))

/-- Python list slice l[:stop] with a possibly negative stop index:
a negative stop is normalised to max(0, len + stop), a non-negative one is
clipped to len. Slicing never raises. -/
def pySliceUpto {α : Type} (l : List α) (stop : Int) : List α :=
  let n : Int := l.length
  let s := if stop < 0 then max 0 (n + stop) else min n stop
  l.take s.toNat

/-- Learning rate used by the Phase-2 recompile (line 214):
learning_rate / 10. -/
def fine_tune_lr (learningRate : ℚ) : ℚ :=
  learningRate / 10

/-- fine_tune_model (lines 203-228), on the base model's layer list of
trainable flags: set the whole base model trainable, then freeze every layer
in base_model.layers[:-fine_tune_layers], and recompile with the reduced
learning rate. Returns the resulting flags (in layer order) and the
recompile learning rate. -/
def fine_tune_model (baseLayers : List Bool) (fineTuneLayers : Nat)
    (learningRate : ℚ) : List Bool × ℚ :=
  let unfrozen := baseLayers.map (fun _ => true)
  let toFreeze := pySliceUpto unfrozen (-(fineTuneLayers : Int))
  (toFreeze.map (fun _ => false) ++ unfrozen.drop toFreeze.length,
   fine_tune_lr learningRate)

/-- Phase-1 epoch count (line 460): initial_epochs = min(10, epochs // 2). -/
def initial_epochs (epochs : Nat) : Nat :=
  min 10 (epochs / 2)

/-- The epoch schedule main runs (lines 455-485) as a list of
(epoch index, learning rate in effect): Phase 1 is fit with
epochs=initial_epochs, covering epoch indices [0, initial_epochs) at the
configured rate; if epochs > initial_epochs, Phase 2 recompiles at the
fine-tune rate and is fit with initial_epoch=initial_epochs, epochs=epochs,
covering [initial_epochs, epochs). -/
def trainingSchedule (epochs : Nat) (lr : ℚ) : List (Nat × ℚ) :=
  (List.range (initial_epochs epochs)).map (fun e => (e, lr)) ++
    (if initial_epochs epochs < epochs then
      (List.range' (initial_epochs epochs) (epochs - initial_epochs epochs)).map
        (fun e => (e, fine_tune_lr lr))
     else [])

/-- Checked division: Python float division raises ZeroDivisionError on a
zero denominator. -/
def safeDiv (a b : ℚ) : Except String ℚ :=
  if b = 0 then Except.error "ZeroDivisionError" else Except.ok (a / b)

/-- The F1 block of evaluate_model (lines 401-404): F1 is computed (and
printed) only under the guard precision + recall > 0. -/
def computeF1 (p r : ℚ) : Except String (Option ℚ) :=
  if p + r > 0 then
    match safeDiv (2 * (p * r)) (p + r) with
    | Except.ok v => Except.ok (some v)
    | Except.error e => Except.error e
  else
    Except.ok none

/-- The five values model.evaluate returns for the compiled metrics
(compile_model, lines 159-171): loss plus accuracy, precision, recall, auc. -/
structure EvalResults where
  loss : ℚ
  accuracy : ℚ
  precision : ℚ
  recallValue : ℚ
  auc : ℚ
deriving DecidableEq

/-- What evaluate_model produces: the returned metrics dict and the F1
value it prints, if any. -/
structure EvalOutput where
  record : List (String × ℚ)
  printedF1 : Option ℚ
deriving DecidableEq

/-- evaluate_model (lines 387-406): builds the metrics dict as
dict(zip(model.metrics_names, results)), prints the five metrics, computes
and prints F1 under the P+R>0 guard, and returns the dict. F1 is never
inserted into the returned dict. -/
def evaluate_model (r : EvalResults) : Except String EvalOutput :=
  let metrics : List (String × ℚ) :=
    [("loss", r.loss), ("accuracy", r.accuracy), ("precision", r.precision),
     ("recall", r.recallValue), ("auc", r.auc)]
  match computeF1 r.precision r.recallValue with
  | Except.ok f1 => Except.ok ⟨metrics, f1⟩
  | Except.error e => Except.error e

/-- Best-checkpoint tracking state of the policy created by get_callbacks
(lines 174-200): ModelCheckpoint monitors val_auc in mode max with
save_best_only, so a checkpoint is persisted exactly when the monitored
value strictly exceeds the best seen so far. `persisted` records the
monitored values of all persisted checkpoints, in order. Modelled from the
spec's adaptive-policy contract (4.3a); the callback engine is outside this
repository. -/
structure PolicyState where
  best : Option ℚ
  persisted : List ℚ
deriving DecidableEq

/-- Fresh policy state: no best seen, nothing persisted. -/
def initPolicy : PolicyState :=
  ⟨none, []⟩

/-- One monitored epoch: persist iff the monitored value exceeds the best. -/
def ckptStep (s : PolicyState) (v : ℚ) : PolicyState :=
  match s.best with
  | none => ⟨some v, s.persisted ++ [v]⟩
  | some b => if b < v then ⟨some v, s.persisted ++ [v]⟩ else s

/-- One training phase observed by the policy: fold over the per-epoch
monitored values. -/
def runPhase (s : PolicyState) (vals : List ℚ) : PolicyState :=
  vals.foldl ckptStep s

/-- The two-phase run of main: the callbacks are created once (line 453)
and the same objects are passed to both fit calls (lines 462-468 and
478-485), so the Phase-1 final policy state is the Phase-2 initial state,
never reset. -/
def trainingRun (phase1 phase2 : List ℚ) : PolicyState :=
  runPhase (runPhase initPolicy phase1) phase2

/-- Checkpoint invariant: the persisted metric values are strictly
increasing and the tracked best is the last persisted value. -/
def PolicyInv (s : PolicyState) : Prop :=
  s.persisted.Chain' (· < ·) ∧ s.best = s.persisted.getLast?

/-- A flat file store: path to byte content. -/
def FileStore : Type :=
  List (String × List Nat)

/-- Write (create or overwrite) a file. -/
def fsWrite (fs : FileStore) (p : String) (c : List Nat) : FileStore :=
  (p, c) :: List.filter (fun q => q.1 != p) fs

/-- Read a file, if present. -/
def fsRead (fs : FileStore) (p : String) : Option (List Nat) :=
  (List.find? (fun q => q.1 == p) fs).map Prod.snd

/-- convert_to_tflite (lines 231-297): writes anemia_detector.tflite, then
labels.txt, then model_metadata.json into output_dir and returns the tflite
path. The byte contents themselves come from the opaque converter and the
serializers and are passed in. -/
def convert_to_tflite (fs : FileStore) (output_dir : String)
    (tfliteModel labelsContent metadataJson : List Nat) : FileStore × String :=
  let tflitePath := output_dir ++ "/anemia_detector.tflite"
  let fs1 := fsWrite fs tflitePath tfliteModel
  let fs2 := fsWrite fs1 (output_dir ++ "/labels.txt") labelsContent
  let fs3 := fsWrite fs2 (output_dir ++ "/model_metadata.json") metadataJson
  (fs3, tflitePath)

/-- Modelled from the spec: the metadata populator of the tflite-support
library (outside this repository) writes a length-prefixed
structured-metadata block into the model file it was opened on; populate()
mutates that file in place. -/
def populateMetadata (meta content : List Nat) : List Nat :=
  content ++ meta.length :: meta

/-- add_tflite_metadata (lines 300-384). `support` is whether the
tflite_support imports succeed. When they do: a populator is opened on
tflite_path and populate() is called (mutating that file in place, lines
361-367), then shutil.copy copies tflite_path to the _with_metadata path and
a second populator populates the copy (lines 370-375). On ImportError the
function prints a warning and returns tflite_path with the store untouched
(lines 380-384). Returns (store, returned path, warned). -/
def add_tflite_metadata (support : Bool) (meta : List Nat) (fs : FileStore)
    (tflitePath output_dir : String) : FileStore × String × Bool :=
  if support then
    let outputPath := output_dir ++ "/anemia_detector_with_metadata.tflite"
    let fs1 := match fsRead fs tflitePath with
      | some c => fsWrite fs tflitePath (populateMetadata meta c)
      | none => fs
    let fs2 := match fsRead fs1 tflitePath with
      | some c => fsWrite fs1 outputPath c
      | none => fs1
    let fs3 := match fsRead fs2 outputPath with
      | some c => fsWrite fs2 outputPath (populateMetadata meta c)
      | none => fs2
    (fs3, outputPath, false)
  else
    (fs, tflitePath, true)


/-- C1 (amended): a missing data root or a missing class subdirectory is a
fatal configuration error: main reports a diagnostic and returns before any
partitioning or training, with no side effects (no pipeline event, hence no
file or directory written). -/
theorem c1_missing_dirs_fatal (s : DirState)
    (h : s.dataDirExists = false ∨ s.anemicExists = false ∨ s.normalExists = false) :
    ∃ e : ConfigError, main_prelude s = (some e, []) := by
  obtain ⟨d, a, n, ca, cn⟩ := s
  cases d
  · exact ⟨ConfigError.missingDataDir, rfl⟩
  · cases a
    · exact ⟨ConfigError.missingClassSubdir, rfl⟩
    · cases n
      · exact ⟨ConfigError.missingClassSubdir, rfl⟩
      · simp at h

/-- Witness: a run whose data root is absent is rejected with no events. -/
theorem c1_missing_dirs_fatal_witness :
    ((⟨false, true, true, 5, 5⟩ : DirState).dataDirExists = false ∨
      (⟨false, true, true, 5, 5⟩ : DirState).anemicExists = false ∨
      (⟨false, true, true, 5, 5⟩ : DirState).normalExists = false) ∧
    ∃ e : ConfigError, main_prelude ⟨false, true, true, 5, 5⟩ = (some e, []) :=
  ⟨Or.inl rfl, c1_missing_dirs_fatal ⟨false, true, true, 5, 5⟩ (Or.inl rfl)⟩

/-- C1 as stated is refuted: both class directories exist but are empty
(zero images each), yet main reports no configuration error and proceeds to
partitioning. -/
theorem c1_empty_dirs_counterexample :
    (main_prelude ⟨true, true, true, 0, 0⟩).1 = none ∧
    PipelineEvent.partitioned ∈ (main_prelude ⟨true, true, true, 0, 0⟩).2 := by
  decide

/-- C7: when fine_tune_layers exceeds the base model's layer count, the
frozen slice base_model.layers[:-fine_tune_layers] is empty, so
fine_tune_model leaves every layer of the base model trainable: the
selection clamps to unfreeze-everything, with no indexing error and no
wrongly frozen subset. -/
theorem c7_fine_tune_clamps (base : List Bool) (k : Nat) (lr : ℚ)
    (h : base.length < k) :
    (fine_tune_model base k lr).1 = List.replicate base.length true := by
  have hk : (0:Int) < (k:Int) := by exact_mod_cast Nat.lt_of_le_of_lt (Nat.zero_le _) h
  simp only [fine_tune_model, pySliceUpto, List.length_map]
  rw [if_pos (by omega : -(k:Int) < 0)]
  rw [max_eq_left (by omega : (base.length : Int) + -(k:Int) ≤ 0)]
  simp [List.map_const']

/-- Witness: a two-layer base model with fine_tune_layers = 5 stays fully
trainable. -/
theorem c7_fine_tune_clamps_witness :
    ([true, false] : List Bool).length < 5 ∧
    (fine_tune_model [true, false] 5 1).1 =
      List.replicate ([true, false] : List Bool).length true :=
  ⟨by decide, c7_fine_tune_clamps [true, false] 5 1 (by decide)⟩

/-- C10: with fine_tune_layers = 0 the Python slice layers[:-0] = layers[:0]
is empty, so fine_tune_model freezes no layer and the whole base model is
left trainable. -/
theorem c10_zero_fine_tune (base : List Bool) (lr : ℚ) :
    pySliceUpto (base.map (fun _ => true)) (-((0:Nat) : Int)) = [] ∧
    (fine_tune_model base 0 lr).1 = List.replicate base.length true := by
  have h0 : pySliceUpto (base.map (fun _ => true)) (-((0:Nat) : Int)) = [] := by
    simp [pySliceUpto]
  refine ⟨h0, ?_⟩
  simp only [fine_tune_model, h0]
  simp [List.map_const']

/-- C8: the F1 computation is total where precision + recall = 0:
evaluation completes (no ZeroDivisionError is raised, the guard skips the
division) and the returned Metrics Record carries no F1 entry. -/
theorem c8_f1_total (r : EvalResults) (h : r.precision + r.recallValue = 0) :
    ∃ o : EvalOutput, evaluate_model r = Except.ok o ∧ o.printedF1 = none ∧
      ∀ v : ℚ, ("f1", v) ∉ o.record := by
  refine ⟨⟨[("loss", r.loss), ("accuracy", r.accuracy), ("precision", r.precision),
    ("recall", r.recallValue), ("auc", r.auc)], none⟩, ?_, rfl, ?_⟩
  · simp [evaluate_model, computeF1, h]
  · intro v
    simp

/-- Witness: the all-zero metric vector evaluates without fault and omits
F1. -/
theorem c8_f1_total_witness :
    ((⟨0, 0, 0, 0, 0⟩ : EvalResults).precision +
        (⟨0, 0, 0, 0, 0⟩ : EvalResults).recallValue = 0) ∧
    ∃ o : EvalOutput, evaluate_model ⟨0, 0, 0, 0, 0⟩ = Except.ok o ∧
      o.printedF1 = none ∧ ∀ v : ℚ, ("f1", v) ∉ o.record :=
  ⟨by norm_num, c8_f1_total ⟨0, 0, 0, 0, 0⟩ (by norm_num)⟩

/-- C2 as stated is refuted: with precision = recall = 1 (so P+R > 0) the
record evaluate_model returns holds exactly loss, accuracy, precision,
recall and auc; the derived F1 (= 1 here) is printed, not part of the
returned record. -/
theorem c2_record_counterexample :
    (0:ℚ) < 1 + 1 ∧
    evaluate_model ⟨0, 1, 1, 1, 1⟩ =
      Except.ok ⟨[("loss", 0), ("accuracy", 1), ("precision", 1), ("recall", 1),
        ("auc", 1)], some 1⟩ ∧
    ∀ v : ℚ, ("f1", v) ∉
      [(("loss", 0) : String × ℚ), ("accuracy", 1), ("precision", 1), ("recall", 1),
        ("auc", 1)] := by
  refine ⟨by norm_num, by norm_num [evaluate_model, computeF1, safeDiv], ?_⟩
  intro v
  simp

/-- C2 (amended): evaluate_model always succeeds and returns a Metrics
Record whose keys are exactly loss, accuracy, precision, recall and auc;
F1 is never part of the returned record. The derived F1 = 2PR/(P+R) is
computed and printed precisely when P+R > 0 and omitted otherwise. -/
theorem c2_metrics_record (r : EvalResults) (o : EvalOutput)
    (h : evaluate_model r = Except.ok o) :
    o.record.map Prod.fst = ["loss", "accuracy", "precision", "recall", "auc"] ∧
    (∀ v : ℚ, ("f1", v) ∉ o.record) ∧
    (0 < r.precision + r.recallValue →
      o.printedF1 = some (2 * (r.precision * r.recallValue) /
        (r.precision + r.recallValue))) ∧
    (r.precision + r.recallValue ≤ 0 → o.printedF1 = none) := by
  by_cases hpr : 0 < r.precision + r.recallValue
  · have hne : r.precision + r.recallValue ≠ 0 := ne_of_gt hpr
    simp only [evaluate_model, computeF1, safeDiv, if_pos hpr, if_neg hne] at h
    injection h with h'
    subst h'
    refine ⟨by simp, ?_, fun _ => rfl, fun hle => absurd hpr (not_lt.mpr hle)⟩
    intro v
    simp
  · simp only [evaluate_model, computeF1, if_neg hpr] at h
    injection h with h'
    subst h'
    refine ⟨by simp, ?_, fun hgt => absurd hgt hpr, fun _ => rfl⟩
    intro v
    simp

/-- Witness for the amended record shape at precision = recall = 1. -/
theorem c2_metrics_record_witness :
    (0:ℚ) < 1 + 1 ∧
    (⟨[("loss", 0), ("accuracy", 1), ("precision", 1), ("recall", 1), ("auc", 1)],
        some 1⟩ : EvalOutput).record.map Prod.fst =
      ["loss", "accuracy", "precision", "recall", "auc"] :=
  ⟨by norm_num,
    (c2_metrics_record ⟨0, 1, 1, 1, 1⟩
      ⟨[("loss", 0), ("accuracy", 1), ("precision", 1), ("recall", 1), ("auc", 1)],
        some 1⟩ (by norm_num [evaluate_model, computeF1, safeDiv])).1⟩

/-- C3 exhibit (code bug): starting from the store the converter produced
(anemia_detector.tflite = [1,2,3]), running add_tflite_metadata with
tflite-support available rewrites that very artifact: its content becomes
the original bytes with the length-prefixed metadata block [2,7,7]
appended, so the artifact written at export is mutated by the
metadata-embedding stage, contrary to the stated frame condition. -/
theorem c3_artifact_mutated :
    fsRead (convert_to_tflite [] "models" [1, 2, 3] [9] [8]).1
        "models/anemia_detector.tflite" = some [1, 2, 3] ∧
    fsRead (add_tflite_metadata true [7, 7]
        (convert_to_tflite [] "models" [1, 2, 3] [9] [8]).1
        "models/anemia_detector.tflite" "models").1
        "models/anemia_detector.tflite" = some [1, 2, 3, 2, 7, 7] ∧
    (some [1, 2, 3, 2, 7, 7] : Option (List Nat)) ≠ some [1, 2, 3] := by
  refine ⟨by decide, by decide, by decide⟩


lemma policyInv_init : PolicyInv initPolicy :=
  ⟨List.chain'_nil, rfl⟩

lemma ckptStep_best_none (s : PolicyState) (v : ℚ) (hs : s.best = none) :
    ckptStep s v = ⟨some v, s.persisted ++ [v]⟩ := by
  unfold ckptStep
  rw [hs]

lemma ckptStep_best_lt (s : PolicyState) (b v : ℚ) (hs : s.best = some b)
    (hbv : b < v) :
    ckptStep s v = ⟨some v, s.persisted ++ [v]⟩ := by
  unfold ckptStep
  rw [hs]
  exact if_pos hbv

lemma ckptStep_best_ge (s : PolicyState) (b v : ℚ) (hs : s.best = some b)
    (hbv : ¬ b < v) :
    ckptStep s v = s := by
  unfold ckptStep
  rw [hs]
  exact if_neg hbv

lemma policyInv_ckptStep (s : PolicyState) (v : ℚ) (h : PolicyInv s) :
    PolicyInv (ckptStep s v) := by
  obtain ⟨hc, hb⟩ := h
  cases hs : s.best with
  | none =>
    have hnil : s.persisted = [] := by
      rw [hs] at hb
      exact List.getLast?_eq_none_iff.mp hb.symm
    rw [ckptStep_best_none s v hs, hnil]
    exact ⟨by simp, by simp⟩
  | some b =>
    by_cases hbv : b < v
    · rw [ckptStep_best_lt s b v hs hbv]
      constructor
      · refine List.Chain'.append hc (List.chain'_singleton v) ?_
        intro x hx y hy
        rw [hs] at hb
        rw [← hb] at hx
        rw [List.head?_cons] at hy
        obtain rfl : b = x := by simpa using hx
        obtain rfl : v = y := by simpa using hy
        exact hbv
      · show some v = (s.persisted ++ [v]).getLast?
        rw [List.getLast?_concat]
    · rw [ckptStep_best_ge s b v hs hbv]
      exact ⟨hc, hb⟩

lemma ckptStep_persisted (s : PolicyState) (v : ℚ) :
    (ckptStep s v).persisted = s.persisted ∨
      (ckptStep s v).persisted = s.persisted ++ [v] := by
  cases hs : s.best with
  | none =>
    right
    rw [ckptStep_best_none s v hs]
  | some b =>
    by_cases hbv : b < v
    · right
      rw [ckptStep_best_lt s b v hs hbv]
    · left
      rw [ckptStep_best_ge s b v hs hbv]

lemma runPhase_persisted_extend (vals : List ℚ) (s : PolicyState) :
    ∃ t : List ℚ, (runPhase s vals).persisted = s.persisted ++ t := by
  induction vals generalizing s with
  | nil => exact ⟨[], by simp [runPhase]⟩
  | cons v vs ih =>
    obtain ⟨t, ht⟩ := ih (ckptStep s v)
    have hrun : runPhase s (v :: vs) = runPhase (ckptStep s v) vs := by
      simp [runPhase]
    rcases ckptStep_persisted s v with h1 | h1
    · exact ⟨t, by rw [hrun, ht, h1]⟩
    · refine ⟨v :: t, ?_⟩
      rw [hrun, ht, h1, List.append_assoc]
      rfl

lemma policyInv_runPhase (vals : List ℚ) (s : PolicyState) (h : PolicyInv s) :
    PolicyInv (runPhase s vals) := by
  induction vals generalizing s with
  | nil => exact h
  | cons v vs ih =>
    have hrun : runPhase s (v :: vs) = runPhase (ckptStep s v) vs := by
      simp [runPhase]
    rw [hrun]
    exact ih _ (policyInv_ckptStep s v h)

/-- C4: the policy objects are created once and shared by both phases with
their best-metric state carried over, so over the combined Phase 1 + Phase 2
epoch sequence the monitored metrics of the persisted checkpoints are
strictly increasing (in particular non-decreasing), and any checkpoint
newly persisted during Phase 2 strictly exceeds Phase 1's best. -/
theorem c4_checkpoint_monotone (p1 p2 : List ℚ) (b v : ℚ)
    (hb : (runPhase initPolicy p1).best = some b)
    (hv : v ∈ (trainingRun p1 p2).persisted.drop
      (runPhase initPolicy p1).persisted.length) :
    (trainingRun p1 p2).persisted.Chain' (· < ·) ∧ b < v := by
  have hInvS : PolicyInv (runPhase initPolicy p1) :=
    policyInv_runPhase p1 initPolicy policyInv_init
  have hInvF : PolicyInv (trainingRun p1 p2) :=
    policyInv_runPhase p2 (runPhase initPolicy p1) hInvS
  obtain ⟨t, ht⟩ := runPhase_persisted_extend p2 (runPhase initPolicy p1)
  have hchain : (trainingRun p1 p2).persisted.Chain' (· < ·) := hInvF.1
  refine ⟨hchain, ?_⟩
  have ht' : (trainingRun p1 p2).persisted =
      (runPhase initPolicy p1).persisted ++ t := ht
  have hvt : v ∈ t := by
    rw [ht', List.drop_left] at hv
    exact hv
  have hbS : b ∈ (runPhase initPolicy p1).persisted := by
    have h2 := hInvS.2
    rw [hb] at h2
    exact List.mem_of_getLast?_eq_some h2.symm
  have hpw : ((runPhase initPolicy p1).persisted ++ t).Pairwise (· < ·) := by
    rw [← ht']
    exact List.chain'_iff_pairwise.mp hchain
  exact (List.pairwise_append.mp hpw).2.2 b hbS v hvt

/-- Witness: Phase 1 observes val-AUC 5, 2, 7 (persisting 5 then 7), Phase 2
observes 6, 9 and persists only 9, which exceeds Phase 1's best 7. -/
theorem c4_checkpoint_monotone_witness :
    (runPhase initPolicy [5, 2, 7]).best = some 7 ∧
    ((9:ℚ) ∈ (trainingRun [5, 2, 7] [6, 9]).persisted.drop
      (runPhase initPolicy [5, 2, 7]).persisted.length) ∧
    ((trainingRun [5, 2, 7] [6, 9]).persisted.Chain' (· < ·) ∧ (7:ℚ) < 9) :=
  ⟨by decide, by decide,
    c4_checkpoint_monotone [5, 2, 7] [6, 9] 7 9 (by decide) (by decide)⟩

/-- C5: for every configured epoch count E and learning rate, Phase 1 covers
exactly the epochs [0, min(10, E/2)) at the configured rate; the overall
schedule numbers epochs contiguously from 0 through E; Phase 2 exists iff
E exceeds the Phase-1 count; the Phase-2 recompile uses rate/10 and every
Phase-2 epoch runs at rate/10. -/
theorem c5_two_phase_schedule (E : Nat) (lr : ℚ) :
    (trainingSchedule E lr).map Prod.fst = List.range E ∧
    (trainingSchedule E lr).take (initial_epochs E) =
      (List.range (min 10 (E / 2))).map (fun e => (e, lr)) ∧
    ((trainingSchedule E lr).drop (initial_epochs E) ≠ [] ↔ min 10 (E / 2) < E) ∧
    (∀ (base : List Bool) (k : Nat), (fine_tune_model base k lr).2 = lr / 10) ∧
    ∀ p ∈ (trainingSchedule E lr).drop (initial_epochs E), p.2 = lr / 10 := by
  have hlen : ((List.range (initial_epochs E)).map
      (fun e => ((e, lr) : Nat × ℚ))).length = initial_epochs E := by
    simp
  have hiE : initial_epochs E ≤ E := by
    unfold initial_epochs
    omega
  have hdrop : (trainingSchedule E lr).drop (initial_epochs E) =
      (if initial_epochs E < E then
        (List.range' (initial_epochs E) (E - initial_epochs E)).map
          (fun e => (e, fine_tune_lr lr))
      else []) := by
    unfold trainingSchedule
    rw [List.drop_left' hlen]
  refine ⟨?_, ?_, ?_, fun base k => rfl, ?_⟩
  · have hranges : List.range (initial_epochs E) ++
        List.range' (initial_epochs E) (E - initial_epochs E) = List.range E := by
      rw [List.range_eq_range' (initial_epochs E), List.range_eq_range' E]
      have h2 := List.range'_append_1 0 (initial_epochs E) (E - initial_epochs E)
      rw [Nat.zero_add] at h2
      rw [h2, Nat.sub_add_cancel hiE]
    unfold trainingSchedule
    by_cases hlt : initial_epochs E < E
    · rw [if_pos hlt, List.map_append, List.map_map, List.map_map]
      show List.map (fun e => e) (List.range (initial_epochs E)) ++
          List.map (fun e => e) (List.range' (initial_epochs E)
            (E - initial_epochs E)) = List.range E
      rw [List.map_id', List.map_id']
      exact hranges
    · rw [if_neg hlt, List.append_nil, List.map_map]
      have hEq : initial_epochs E = E := Nat.le_antisymm hiE (Nat.le_of_not_lt hlt)
      show List.map (fun e => e) (List.range (initial_epochs E)) = List.range E
      rw [List.map_id', hEq]
  · unfold trainingSchedule
    rw [List.take_left' hlen]
    rfl
  · rw [hdrop]
    by_cases hlt : initial_epochs E < E
    · rw [if_pos hlt]
      have : initial_epochs E = min 10 (E / 2) := rfl
      simp only [ne_eq, List.map_eq_nil_iff, List.range'_eq_nil]
      unfold initial_epochs at hlt ⊢
      omega
    · rw [if_neg hlt]
      simp only [ne_eq, not_true_eq_false, false_iff, not_lt]
      exact Nat.le_of_not_lt hlt
  · rw [hdrop]
    by_cases hlt : initial_epochs E < E
    · rw [if_pos hlt]
      intro p hp
      obtain ⟨e, he, rfl⟩ := List.mem_map.mp hp
      rfl
    · rw [if_neg hlt]
      intro p hp
      simp at hp

/-- Witness: E = 4 epochs at rate 10: Phase 1 is epochs 0 and 1, Phase 2 is
epochs 2 and 3 at rate 1 = 10/10. -/
theorem c5_two_phase_schedule_witness :
    ((2, (1:ℚ)) ∈ (trainingSchedule 4 10).drop (initial_epochs 4)) ∧
    ((2, (1:ℚ)) : Nat × ℚ).2 = 10 / 10 := by
  have hmem : (2, (1:ℚ)) ∈ (trainingSchedule 4 10).drop (initial_epochs 4) := by
    norm_num [trainingSchedule, initial_epochs, fine_tune_lr, List.range']
  exact ⟨hmem, (c5_two_phase_schedule 4 10).2.2.2.2 (2, 1) hmem⟩

lemma get_random_transform_val (r : Draws) :
    get_random_transform val_datagen r = ⟨0, 0, 0, 0, 1, 1, false, none⟩ := by
  simp [get_random_transform, val_datagen]

lemma processSample_val (r : Draws) (img : List ℚ) :
    processSample val_datagen r img = standardize val_datagen img := by
  unfold processSample
  rw [get_random_transform_val]
  unfold apply_transform standardize
  simp

/-- C6: the validation stream applies only the 1/255 rescaling (for every
random draw, the sample pipeline collapses to the deterministic rescale),
its iteration order with shuffle=False is the same fixed ascending order in
every epoch, and two evaluation passes with the same model over the same
validation stream — under arbitrary, even different, random streams — yield
the same predictions and hence identical aggregated loss/accuracy. -/
theorem c6_val_deterministic (m : List ℚ → ℚ) (agg : List ℚ → ℚ × ℚ)
    (imgs : List (List ℚ)) (rng₁ rng₂ : Nat → Draws) (perm : Nat → List Nat)
    (e₁ e₂ n : Nat) :
    (∀ (r : Draws) (img : List ℚ),
      processSample val_datagen r img = standardize val_datagen img) ∧
    epochIndexOrder false perm e₁ n = epochIndexOrder false perm e₂ n ∧
    evalPass m val_datagen rng₁ imgs = evalPass m val_datagen rng₂ imgs ∧
    agg (evalPass m val_datagen rng₁ imgs) =
      agg (evalPass m val_datagen rng₂ imgs) := by
  have h3 : evalPass m val_datagen rng₁ imgs = evalPass m val_datagen rng₂ imgs := by
    unfold evalPass
    refine List.map_congr_left ?_
    intro p hp
    rw [processSample_val, processSample_val]
  exact ⟨fun r img => processSample_val r img, rfl, h3, by rw [h3]⟩

lemma find?_filter_keep {α : Type} (l : List α) (pr g : α → Bool)
    (h : ∀ x, pr x = true → g x = true) :
    List.find? pr (List.filter g l) = List.find? pr l := by
  induction l with
  | nil => rfl
  | cons x xs ih =>
    by_cases hg : g x = true
    · rw [List.filter_cons_of_pos hg]
      by_cases hp : pr x = true
      · rw [List.find?_cons_of_pos _ hp, List.find?_cons_of_pos _ hp]
      · rw [List.find?_cons_of_neg _ (by simpa using hp),
          List.find?_cons_of_neg _ (by simpa using hp), ih]
    · have hp : pr x ≠ true := fun hpp => hg (h x hpp)
      rw [List.filter_cons_of_neg (by simpa using hg),
        List.find?_cons_of_neg _ (by simpa using hp), ih]

lemma fsRead_fsWrite_same (fs : FileStore) (p : String) (c : List Nat) :
    fsRead (fsWrite fs p c) p = some c := by
  unfold fsRead fsWrite
  rw [List.find?_cons_of_pos _ (by simp)]
  rfl

lemma fsRead_fsWrite_other (fs : FileStore) (p q : String) (c : List Nat)
    (h : q ≠ p) :
    fsRead (fsWrite fs p c) q = fsRead fs q := by
  unfold fsRead fsWrite
  rw [List.find?_cons_of_neg _ (by simpa using Ne.symm h)]
  rw [find?_filter_keep]
  intro x hx
  have hxq : x.1 = q := by simpa using hx
  simp [hxq, bne_iff_ne]
  exact h

lemma append_ne_of_ne (a : String) {s t : String} (h : s ≠ t) :
    a ++ s ≠ a ++ t := by
  intro he
  apply h
  apply String.ext
  have hd := congrArg String.data he
  rw [String.data_append, String.data_append] at hd
  exact List.append_cancel_left hd

/-- C9: when the tflite-support capability is unavailable, the metadata
stage changes nothing: the store is untouched, the original artifact path is
returned, and a warning is surfaced, while the quantized artifact and the
standalone metadata document written at conversion are both present — a
non-fatal degradation, the pipeline continues. -/
theorem c9_metadata_degrades (fs : FileStore) (output_dir : String)
    (model labels meta buf : List Nat) :
    add_tflite_metadata false buf (convert_to_tflite fs output_dir model labels meta).1
        (convert_to_tflite fs output_dir model labels meta).2 output_dir =
      ((convert_to_tflite fs output_dir model labels meta).1,
        (convert_to_tflite fs output_dir model labels meta).2, true) ∧
    fsRead (convert_to_tflite fs output_dir model labels meta).1
        (output_dir ++ "/model_metadata.json") = some meta ∧
    fsRead (convert_to_tflite fs output_dir model labels meta).1
        (output_dir ++ "/anemia_detector.tflite") = some model := by
  refine ⟨rfl, ?_, ?_⟩
  · simp only [convert_to_tflite]
    exact fsRead_fsWrite_same _ _ _
  · simp only [convert_to_tflite]
    rw [fsRead_fsWrite_other _ _ _ _ (append_ne_of_ne _ (by decide)),
      fsRead_fsWrite_other _ _ _ _ (append_ne_of_ne _ (by decide)),
      fsRead_fsWrite_same]

end MatriPixel
